import Mathlib

/-!
Verification of the `to_string` Rust crate (file `src/lib.rs`).

The crate defines a trait `IntoString` with `fn into_string(self) -> String`,
implemented for `String`, `str`, `CStr`, `CString`, `OsStr`, `OsString`,
`Cow` wrappers of these, and references up to five levels deep.

Shallow embedding conventions:
* a byte is a `Nat` (values below 256 in practice);
* the content of a Rust `String` or `str` is a list of Unicode scalar
  values (`RStr := List Nat`);
* a `CStr`/`CString` is its underlying buffer, terminating NUL included
  (`CStrM`); `to_bytes` drops the final byte, as in Rust;
* an `OsStr`/`OsString` is its underlying byte list (Unix representation);
* `Cow` is a two-constructor wrapper recording the owned/borrowed tag.

`decodeUtf8` models the strict validation of `std::str::from_utf8`
(success exactly on well-formed UTF-8) and `utf8Lossy` models
`String::from_utf8_lossy` / `OsStr::to_string_lossy` (each maximal invalid
subpart replaced by one U+FFFD, following the std library byte-level rules).
-/

/-- A Unicode scalar value: below 0x110000 and not a surrogate. -/
abbrev IsScalar (c : Nat) : Prop := c < 0x110000 ∧ (c < 0xD800 ∨ 0xDFFF < c)

/-- A UTF-8 continuation byte, in the range 0x80 to 0xBF. -/
abbrev ContByte (b : Nat) : Prop := 0x80 ≤ b ∧ b ≤ 0xBF

/-- The admissible second byte after a three-byte leader `b0`, per the
std library validation table: leader 0xE0 requires 0xA0..0xBF (no
overlong forms), leader 0xED requires 0x80..0x9F (no surrogates), other
leaders take any continuation byte. -/
abbrev Cont3 (b0 b1 : Nat) : Prop :=
  (b0 = 0xE0 ∧ 0xA0 ≤ b1 ∧ b1 ≤ 0xBF) ∨
  (b0 = 0xED ∧ 0x80 ≤ b1 ∧ b1 ≤ 0x9F) ∨
  (b0 ≠ 0xE0 ∧ b0 ≠ 0xED ∧ 0x80 ≤ b1 ∧ b1 ≤ 0xBF)

/-- The admissible second byte after a four-byte leader `b0`: leader 0xF0
requires 0x90..0xBF (no overlong forms), leader 0xF4 requires 0x80..0x8F
(nothing above 0x10FFFF), other leaders take any continuation byte. -/
abbrev Cont4 (b0 b1 : Nat) : Prop :=
  (b0 = 0xF0 ∧ 0x90 ≤ b1 ∧ b1 ≤ 0xBF) ∨
  (b0 = 0xF4 ∧ 0x80 ≤ b1 ∧ b1 ≤ 0x8F) ∨
  (b0 ≠ 0xF0 ∧ b0 ≠ 0xF4 ∧ 0x80 ≤ b1 ∧ b1 ≤ 0xBF)

/-- Strict UTF-8 decoding, modelling `std::str::from_utf8`: `some`
exactly on well-formed input, returning the decoded scalar values. -/
def decodeUtf8 : List Nat → Option (List Nat)
  | [] => some []
  | b0 :: t0 =>
    if b0 ≤ 0x7F then
      (decodeUtf8 t0).map (fun s => b0 :: s)
    else if 0xC2 ≤ b0 ∧ b0 ≤ 0xDF then
      match t0 with
      | b1 :: t1 =>
        if ContByte b1 then
          (decodeUtf8 t1).map (fun s => ((b0 - 0xC0) * 0x40 + (b1 - 0x80)) :: s)
        else none
      | [] => none
    else if 0xE0 ≤ b0 ∧ b0 ≤ 0xEF then
      match t0 with
      | [] => none
      | b1 :: t1 =>
        if Cont3 b0 b1 then
          match t1 with
          | [] => none
          | b2 :: t2 =>
            if ContByte b2 then
              (decodeUtf8 t2).map
                (fun s => ((b0 - 0xE0) * 0x1000 + (b1 - 0x80) * 0x40 + (b2 - 0x80)) :: s)
            else none
        else none
    else if 0xF0 ≤ b0 ∧ b0 ≤ 0xF4 then
      match t0 with
      | [] => none
      | b1 :: t1 =>
        if Cont4 b0 b1 then
          match t1 with
          | [] => none
          | b2 :: t2 =>
            if ContByte b2 then
              match t2 with
              | [] => none
              | b3 :: t3 =>
                if ContByte b3 then
                  (decodeUtf8 t3).map
                    (fun s => ((b0 - 0xF0) * 0x40000 + (b1 - 0x80) * 0x1000 +
                      (b2 - 0x80) * 0x40 + (b3 - 0x80)) :: s)
                else none
            else none
        else none
    else none
termination_by l => l.length
decreasing_by all_goals simp [List.length_cons] <;> omega

/-- Lossy UTF-8 decoding, modelling `String::from_utf8_lossy` (hence
`OsStr::to_string_lossy` on Unix): well-formed sequences are decoded,
each maximal invalid subpart becomes one U+FFFD, and decoding resumes at
the first byte after the subpart, per the std library error-length rules. -/
def utf8Lossy : List Nat → List Nat
  | [] => []
  | b0 :: t0 =>
    if b0 ≤ 0x7F then b0 :: utf8Lossy t0
    else if 0xC2 ≤ b0 ∧ b0 ≤ 0xDF then
      match t0 with
      | [] => [0xFFFD]
      | b1 :: t1 =>
        if ContByte b1 then ((b0 - 0xC0) * 0x40 + (b1 - 0x80)) :: utf8Lossy t1
        else 0xFFFD :: utf8Lossy (b1 :: t1)
    else if 0xE0 ≤ b0 ∧ b0 ≤ 0xEF then
      match t0 with
      | [] => [0xFFFD]
      | b1 :: t1 =>
        if Cont3 b0 b1 then
          match t1 with
          | [] => [0xFFFD]
          | b2 :: t2 =>
            if ContByte b2 then
              ((b0 - 0xE0) * 0x1000 + (b1 - 0x80) * 0x40 + (b2 - 0x80)) :: utf8Lossy t2
            else 0xFFFD :: utf8Lossy (b2 :: t2)
        else 0xFFFD :: utf8Lossy (b1 :: t1)
    else if 0xF0 ≤ b0 ∧ b0 ≤ 0xF4 then
      match t0 with
      | [] => [0xFFFD]
      | b1 :: t1 =>
        if Cont4 b0 b1 then
          match t1 with
          | [] => [0xFFFD]
          | b2 :: t2 =>
            if ContByte b2 then
              match t2 with
              | [] => [0xFFFD]
              | b3 :: t3 =>
                if ContByte b3 then
                  ((b0 - 0xF0) * 0x40000 + (b1 - 0x80) * 0x1000 +
                    (b2 - 0x80) * 0x40 + (b3 - 0x80)) :: utf8Lossy t3
                else 0xFFFD :: utf8Lossy (b3 :: t3)
            else 0xFFFD :: utf8Lossy (b2 :: t2)
        else 0xFFFD :: utf8Lossy (b1 :: t1)
    else 0xFFFD :: utf8Lossy t0
termination_by l => l.length
decreasing_by all_goals simp [List.length_cons] <;> omega

/-- The UTF-8 encoding of one Unicode scalar value. -/
def utf8EncodeChar (c : Nat) : List Nat :=
  if c ≤ 0x7F then [c]
  else if c ≤ 0x7FF then [0xC0 + c / 0x40, 0x80 + c % 0x40]
  else if c ≤ 0xFFFF then
    [0xE0 + c / 0x1000, 0x80 + (c / 0x40) % 0x40, 0x80 + c % 0x40]
  else
    [0xF0 + c / 0x40000, 0x80 + (c / 0x1000) % 0x40,
      0x80 + (c / 0x40) % 0x40, 0x80 + c % 0x40]

/-- The UTF-8 encoding of a list of scalar values. -/
def utf8Encode : List Nat → List Nat
  | [] => []
  | c :: cs => utf8EncodeChar c ++ utf8Encode cs

/-- The content of a Rust `String` or `str`: its Unicode scalar values. -/
abbrev RStr := List Nat

/-- The content of an `OsStr` or `OsString`: its bytes (Unix model). -/
abbrev OsStrM := List Nat

/-- A `CStr` or `CString`: the underlying buffer, terminating NUL included. -/
structure CStrM where
  buf : List Nat

/-- Model of `CStr::to_bytes` and `CString::as_bytes`: the buffer without
its terminating NUL byte. -/
def CStrM.to_bytes (c : CStrM) : List Nat := c.buf.dropLast

/-- The `CStr` representation invariant: the buffer ends with a NUL byte
and contains no interior NUL. -/
def WfCStr (c : CStrM) : Prop :=
  c.buf.getLast? = some 0 ∧ ∀ b ∈ c.buf.dropLast, b ≠ 0

instance (c : CStrM) : Decidable (WfCStr c) := by
  unfold WfCStr; infer_instance

/-- The `Cow` wrapper: an owned value or a borrowed one. -/
inductive CowM (α : Type) : Type where
  | owned (x : α)
  | borrowed (x : α)

/-- Dereferencing a `Cow` to its underlying value. -/
def CowM.deref : CowM α → α
  | .owned x => x
  | .borrowed x => x

/-- Model of the private helper `local_to_str`: decode when the whole
buffer is well-formed UTF-8, otherwise build a string of U+FFFD
characters, one per input byte. -/
def local_to_str (x : List Nat) : RStr :=
  match decodeUtf8 x with
  | some s => s
  | none => List.replicate x.length 0xFFFD

/-- Model of the std method `CString::into_string`: checked conversion,
returning the original `CString` (via the error and `into_cstring`) on
invalid UTF-8. -/
def CString.std_into_string (c : CStrM) : Except CStrM RStr :=
  match decodeUtf8 c.to_bytes with
  | some s => .ok s
  | none => .error c

/-- Model of the std method `OsString::into_string`: checked conversion,
returning the original `OsString` on invalid UTF-8. -/
def OsString.std_into_string (o : OsStrM) : Except OsStrM RStr :=
  match decodeUtf8 o with
  | some s => .ok s
  | none => .error o

/-- Model of the std method `OsStr::to_string_lossy` (content of the
returned `Cow` of `str`). -/
def to_string_lossy (o : OsStrM) : RStr := utf8Lossy o

/-- The `impl IntoString for CString`: try `CString::into_string`, fall
back on `local_to_str` over the bytes of the returned `CString`. -/
def intoString_CString (c : CStrM) : RStr :=
  match CString.std_into_string c with
  | .ok x => x
  | .error e => local_to_str e.to_bytes

/-- The `impl IntoString for Cow of CStr`: owned values go through the
`CString` implementation, borrowed ones through `local_to_str`. -/
def intoString_CowCStr : CowM CStrM → RStr
  | .owned x => intoString_CString x
  | .borrowed x => local_to_str x.to_bytes

/-- The `impl IntoString for &Cow of CStr`. -/
def intoString_CowCStrRef1 (c : CowM CStrM) : RStr := local_to_str c.deref.to_bytes

/-- The `impl IntoString for &&Cow of CStr`. -/
def intoString_CowCStrRef2 (c : CowM CStrM) : RStr := local_to_str c.deref.to_bytes

/-- The `impl IntoString for &&&Cow of CStr`. -/
def intoString_CowCStrRef3 (c : CowM CStrM) : RStr := local_to_str c.deref.to_bytes

/-- The `impl IntoString for &&&&Cow of CStr`. -/
def intoString_CowCStrRef4 (c : CowM CStrM) : RStr := local_to_str c.deref.to_bytes

/-- The `impl IntoString for &CString`. -/
def intoString_CStringRef1 (c : CStrM) : RStr := local_to_str c.to_bytes

/-- The `impl IntoString for &&CString`. -/
def intoString_CStringRef2 (c : CStrM) : RStr := local_to_str c.to_bytes

/-- The `impl IntoString for &&&CString`. -/
def intoString_CStringRef3 (c : CStrM) : RStr := local_to_str c.to_bytes

/-- The `impl IntoString for &&&&CString`. -/
def intoString_CStringRef4 (c : CStrM) : RStr := local_to_str c.to_bytes

/-- The `impl IntoString for &&&&&CString`. -/
def intoString_CStringRef5 (c : CStrM) : RStr := local_to_str c.to_bytes

/-- The `impl IntoString for &CStr`. -/
def intoString_CStrRef1 (c : CStrM) : RStr := local_to_str c.to_bytes

/-- The `impl IntoString for &&CStr`. -/
def intoString_CStrRef2 (c : CStrM) : RStr := local_to_str c.to_bytes

/-- The `impl IntoString for &&&CStr`. -/
def intoString_CStrRef3 (c : CStrM) : RStr := local_to_str c.to_bytes

/-- The `impl IntoString for &&&&CStr`. -/
def intoString_CStrRef4 (c : CStrM) : RStr := local_to_str c.to_bytes

/-- The `impl IntoString for &&&&&CStr`. -/
def intoString_CStrRef5 (c : CStrM) : RStr := local_to_str c.to_bytes

/-- The `impl IntoString for OsString`: try `OsString::into_string`,
fall back on `to_string_lossy` over the returned `OsString`. -/
def intoString_OsString (o : OsStrM) : RStr :=
  match OsString.std_into_string o with
  | .ok x => x
  | .error e => to_string_lossy e

/-- The `impl IntoString for Cow of OsStr`: owned values go through the
`OsString` implementation, borrowed ones through the `&OsStr` one. -/
def intoString_CowOsStr : CowM OsStrM → RStr
  | .owned x => intoString_OsString x
  | .borrowed x => to_string_lossy x

/-- The `impl IntoString for &Cow of OsStr`. -/
def intoString_CowOsStrRef1 (c : CowM OsStrM) : RStr := to_string_lossy c.deref

/-- The `impl IntoString for &&Cow of OsStr`. -/
def intoString_CowOsStrRef2 (c : CowM OsStrM) : RStr := to_string_lossy c.deref

/-- The `impl IntoString for &&&Cow of OsStr`. -/
def intoString_CowOsStrRef3 (c : CowM OsStrM) : RStr := to_string_lossy c.deref

/-- The `impl IntoString for &&&&Cow of OsStr`. -/
def intoString_CowOsStrRef4 (c : CowM OsStrM) : RStr := to_string_lossy c.deref

/-- The `impl IntoString for &&&&&Cow of OsStr`. -/
def intoString_CowOsStrRef5 (c : CowM OsStrM) : RStr := to_string_lossy c.deref

/-- The `impl IntoString for &OsString`. -/
def intoString_OsStringRef1 (o : OsStrM) : RStr := to_string_lossy o

/-- The `impl IntoString for &&OsString`. -/
def intoString_OsStringRef2 (o : OsStrM) : RStr := to_string_lossy o

/-- The `impl IntoString for &&&OsString`. -/
def intoString_OsStringRef3 (o : OsStrM) : RStr := to_string_lossy o

/-- The `impl IntoString for &&&&OsString`. -/
def intoString_OsStringRef4 (o : OsStrM) : RStr := to_string_lossy o

/-- The `impl IntoString for &&&&&OsString`. -/
def intoString_OsStringRef5 (o : OsStrM) : RStr := to_string_lossy o

/-- The `impl IntoString for &OsStr`. -/
def intoString_OsStrRef1 (o : OsStrM) : RStr := to_string_lossy o

/-- The `impl IntoString for &&OsStr`. -/
def intoString_OsStrRef2 (o : OsStrM) : RStr := to_string_lossy o

/-- The `impl IntoString for &&&OsStr`. -/
def intoString_OsStrRef3 (o : OsStrM) : RStr := to_string_lossy o

/-- The `impl IntoString for &&&&OsStr`. -/
def intoString_OsStrRef4 (o : OsStrM) : RStr := to_string_lossy o

/-- The `impl IntoString for &&&&&OsStr`. -/
def intoString_OsStrRef5 (o : OsStrM) : RStr := to_string_lossy o

/-- The `impl IntoString for Cow of str`: the owned buffer is returned
as is, a borrowed slice is copied. -/
def intoString_CowStr : CowM RStr → RStr
  | .owned x => x
  | .borrowed x => x

/-- The `impl IntoString for &Cow of str`. -/
def intoString_CowStrRef1 (c : CowM RStr) : RStr := c.deref

/-- The `impl IntoString for &&Cow of str`. -/
def intoString_CowStrRef2 (c : CowM RStr) : RStr := c.deref

/-- The `impl IntoString for &&&Cow of str`. -/
def intoString_CowStrRef3 (c : CowM RStr) : RStr := c.deref

/-- The `impl IntoString for &&&&Cow of str`. -/
def intoString_CowStrRef4 (c : CowM RStr) : RStr := c.deref

/-- The `impl IntoString for &&&&&Cow of str`. -/
def intoString_CowStrRef5 (c : CowM RStr) : RStr := c.deref

/-- The `impl IntoString for &str` (via `to_string`). -/
def intoString_StrRef1 (s : RStr) : RStr := s

/-- The `impl IntoString for &&str`. -/
def intoString_StrRef2 (s : RStr) : RStr := s

/-- The `impl IntoString for &&&str`. -/
def intoString_StrRef3 (s : RStr) : RStr := s

/-- The `impl IntoString for &&&&str`. -/
def intoString_StrRef4 (s : RStr) : RStr := s

/-- The `impl IntoString for &&&&&str`. -/
def intoString_StrRef5 (s : RStr) : RStr := s

/-- The `impl IntoString for String`: the value itself, untouched. -/
def intoString_String (s : RStr) : RStr := s

/-- The `impl IntoString for &String` (via `clone`). -/
def intoString_StringRef1 (s : RStr) : RStr := s

/-- The `impl IntoString for &&String` (via `to_string`). -/
def intoString_StringRef2 (s : RStr) : RStr := s

/-- The `impl IntoString for &&&String`. -/
def intoString_StringRef3 (s : RStr) : RStr := s

/-- The `impl IntoString for &&&&String`. -/
def intoString_StringRef4 (s : RStr) : RStr := s

/-- The `impl IntoString for &&&&&String`. -/
def intoString_StringRef5 (s : RStr) : RStr := s

example : decodeUtf8 [0x48, 0x69] = some [0x48, 0x69] := by simp +decide [local_to_str, decodeUtf8]
example : decodeUtf8 [0xE2, 0x82, 0xAC] = some [0x20AC] := by simp +decide [local_to_str, decodeUtf8]
example : decodeUtf8 [0x41, 0xFF] = none := by simp +decide [local_to_str, decodeUtf8]
example : utf8Lossy [0x41, 0xFF, 0x42] = [0x41, 0xFFFD, 0x42] := by simp +decide [utf8Lossy]
example : local_to_str [0x41, 0xFF, 0x42] = [0xFFFD, 0xFFFD, 0xFFFD] := by simp +decide [local_to_str, decodeUtf8]
example : utf8EncodeChar 0x20AC = [0xE2, 0x82, 0xAC] := by decide
example : utf8Lossy [0xF0, 0x9F, 0x41] = [0xFFFD, 0x41] := by simp +decide [utf8Lossy]
example : utf8Lossy [0xFF, 0xFF] = [0xFFFD, 0xFFFD] := by simp +decide [utf8Lossy]
example : utf8Lossy [0xE0, 0xA0] = [0xFFFD] := by simp +decide [utf8Lossy]
example : decodeUtf8 [0xED, 0xA0, 0x80] = none := by simp +decide [local_to_str, decodeUtf8]
example : decodeUtf8 [0xF4, 0x8F, 0xBF, 0xBF] = some [0x10FFFF] := by simp +decide [local_to_str, decodeUtf8]
example : decodeUtf8 [0xC0, 0xAF] = none := by simp +decide [local_to_str, decodeUtf8]

theorem decode_encodeChar (c : Nat) (h : IsScalar c) (rest : List Nat) :
    decodeUtf8 (utf8EncodeChar c ++ rest) = (decodeUtf8 rest).map (fun s => c :: s) := by
  obtain ⟨h1, h2⟩ := h
  by_cases hA : c ≤ 0x7F
  · have he : utf8EncodeChar c = [c] := by simp [utf8EncodeChar, hA]
    rw [he]
    rw [decodeUtf8.eq_def]
    simp [hA]
  · by_cases hB : c ≤ 0x7FF
    · have he : utf8EncodeChar c = [0xC0 + c / 0x40, 0x80 + c % 0x40] := by
        simp [utf8EncodeChar, hA, hB]
      rw [he]
      have n1 : ¬(0xC0 + c / 0x40 ≤ 0x7F) := by omega
      have n2 : 0xC2 ≤ 0xC0 + c / 0x40 ∧ 0xC0 + c / 0x40 ≤ 0xDF := by omega
      have n3 : ContByte (0x80 + c % 0x40) := by constructor <;> omega
      have n4 : (0xC0 + c / 0x40 - 0xC0) * 0x40 + (0x80 + c % 0x40 - 0x80) = c := by omega
      simp only [List.cons_append, List.nil_append]
      rw [decodeUtf8.eq_def]
      dsimp only
      rw [if_neg n1, if_pos n2, if_pos n3]
      simp only [n4]
    · by_cases hC : c ≤ 0xFFFF
      · have he : utf8EncodeChar c =
            [0xE0 + c / 0x1000, 0x80 + (c / 0x40) % 0x40, 0x80 + c % 0x40] := by
          simp [utf8EncodeChar, hA, hB, hC]
        rw [he]
        have n1 : ¬(0xE0 + c / 0x1000 ≤ 0x7F) := by omega
        have n2 : ¬(0xC2 ≤ 0xE0 + c / 0x1000 ∧ 0xE0 + c / 0x1000 ≤ 0xDF) := by omega
        have n3 : 0xE0 ≤ 0xE0 + c / 0x1000 ∧ 0xE0 + c / 0x1000 ≤ 0xEF := by omega
        have n4 : Cont3 (0xE0 + c / 0x1000) (0x80 + (c / 0x40) % 0x40) := by
          by_cases hE0 : c < 0x1000
          · left; omega
          · by_cases hED : 0xD000 ≤ c ∧ c < 0xE000
            · right; left; omega
            · right; right; omega
        have n5 : ContByte (0x80 + c % 0x40) := by constructor <;> omega
        have n6 : (0xE0 + c / 0x1000 - 0xE0) * 0x1000 + (0x80 + (c / 0x40) % 0x40 - 0x80) * 0x40 +
            (0x80 + c % 0x40 - 0x80) = c := by omega
        simp only [List.cons_append, List.nil_append]
        rw [decodeUtf8.eq_def]
        dsimp only
        rw [if_neg n1, if_neg n2, if_pos n3, if_pos n4, if_pos n5]
        simp only [n6]
      · have he : utf8EncodeChar c =
            [0xF0 + c / 0x40000, 0x80 + (c / 0x1000) % 0x40,
              0x80 + (c / 0x40) % 0x40, 0x80 + c % 0x40] := by
          simp [utf8EncodeChar, hA, hB, hC]
        rw [he]
        have n1 : ¬(0xF0 + c / 0x40000 ≤ 0x7F) := by omega
        have n2 : ¬(0xC2 ≤ 0xF0 + c / 0x40000 ∧ 0xF0 + c / 0x40000 ≤ 0xDF) := by omega
        have n3 : ¬(0xE0 ≤ 0xF0 + c / 0x40000 ∧ 0xF0 + c / 0x40000 ≤ 0xEF) := by omega
        have n4 : 0xF0 ≤ 0xF0 + c / 0x40000 ∧ 0xF0 + c / 0x40000 ≤ 0xF4 := by omega
        have n5 : Cont4 (0xF0 + c / 0x40000) (0x80 + (c / 0x1000) % 0x40) := by
          by_cases hF0 : c < 0x40000
          · left; omega
          · by_cases hF4 : 0x100000 ≤ c
            · right; left; omega
            · right; right; omega
        have n6 : ContByte (0x80 + (c / 0x40) % 0x40) := by constructor <;> omega
        have n7 : ContByte (0x80 + c % 0x40) := by constructor <;> omega
        have n8 : (0xF0 + c / 0x40000 - 0xF0) * 0x40000 + (0x80 + (c / 0x1000) % 0x40 - 0x80) * 0x1000 +
            (0x80 + (c / 0x40) % 0x40 - 0x80) * 0x40 + (0x80 + c % 0x40 - 0x80) = c := by omega
        simp only [List.cons_append, List.nil_append]
        rw [decodeUtf8.eq_def]
        dsimp only
        rw [if_neg n1, if_neg n2, if_neg n3, if_pos n4, if_pos n5, if_pos n6, if_pos n7]
        simp only [n8]

theorem lossy_encodeChar (c : Nat) (h : IsScalar c) (rest : List Nat) :
    utf8Lossy (utf8EncodeChar c ++ rest) = c :: utf8Lossy rest := by
  obtain ⟨h1, h2⟩ := h
  by_cases hA : c ≤ 0x7F
  · have he : utf8EncodeChar c = [c] := by simp [utf8EncodeChar, hA]
    rw [he]
    rw [utf8Lossy.eq_def]
    simp [hA]
  · by_cases hB : c ≤ 0x7FF
    · have he : utf8EncodeChar c = [0xC0 + c / 0x40, 0x80 + c % 0x40] := by
        simp [utf8EncodeChar, hA, hB]
      rw [he]
      have n1 : ¬(0xC0 + c / 0x40 ≤ 0x7F) := by omega
      have n2 : 0xC2 ≤ 0xC0 + c / 0x40 ∧ 0xC0 + c / 0x40 ≤ 0xDF := by omega
      have n3 : ContByte (0x80 + c % 0x40) := by constructor <;> omega
      have n4 : (0xC0 + c / 0x40 - 0xC0) * 0x40 + (0x80 + c % 0x40 - 0x80) = c := by omega
      simp only [List.cons_append, List.nil_append]
      rw [utf8Lossy.eq_def]
      dsimp only
      rw [if_neg n1, if_pos n2, if_pos n3]
      simp only [n4]
    · by_cases hC : c ≤ 0xFFFF
      · have he : utf8EncodeChar c =
            [0xE0 + c / 0x1000, 0x80 + (c / 0x40) % 0x40, 0x80 + c % 0x40] := by
          simp [utf8EncodeChar, hA, hB, hC]
        rw [he]
        have n1 : ¬(0xE0 + c / 0x1000 ≤ 0x7F) := by omega
        have n2 : ¬(0xC2 ≤ 0xE0 + c / 0x1000 ∧ 0xE0 + c / 0x1000 ≤ 0xDF) := by omega
        have n3 : 0xE0 ≤ 0xE0 + c / 0x1000 ∧ 0xE0 + c / 0x1000 ≤ 0xEF := by omega
        have n4 : Cont3 (0xE0 + c / 0x1000) (0x80 + (c / 0x40) % 0x40) := by
          by_cases hE0 : c < 0x1000
          · left; omega
          · by_cases hED : 0xD000 ≤ c ∧ c < 0xE000
            · right; left; omega
            · right; right; omega
        have n5 : ContByte (0x80 + c % 0x40) := by constructor <;> omega
        have n6 : (0xE0 + c / 0x1000 - 0xE0) * 0x1000 + (0x80 + (c / 0x40) % 0x40 - 0x80) * 0x40 +
            (0x80 + c % 0x40 - 0x80) = c := by omega
        simp only [List.cons_append, List.nil_append]
        rw [utf8Lossy.eq_def]
        dsimp only
        rw [if_neg n1, if_neg n2, if_pos n3, if_pos n4, if_pos n5]
        simp only [n6]
      · have he : utf8EncodeChar c =
            [0xF0 + c / 0x40000, 0x80 + (c / 0x1000) % 0x40,
              0x80 + (c / 0x40) % 0x40, 0x80 + c % 0x40] := by
          simp [utf8EncodeChar, hA, hB, hC]
        rw [he]
        have n1 : ¬(0xF0 + c / 0x40000 ≤ 0x7F) := by omega
        have n2 : ¬(0xC2 ≤ 0xF0 + c / 0x40000 ∧ 0xF0 + c / 0x40000 ≤ 0xDF) := by omega
        have n3 : ¬(0xE0 ≤ 0xF0 + c / 0x40000 ∧ 0xF0 + c / 0x40000 ≤ 0xEF) := by omega
        have n4 : 0xF0 ≤ 0xF0 + c / 0x40000 ∧ 0xF0 + c / 0x40000 ≤ 0xF4 := by omega
        have n5 : Cont4 (0xF0 + c / 0x40000) (0x80 + (c / 0x1000) % 0x40) := by
          by_cases hF0 : c < 0x40000
          · left; omega
          · by_cases hF4 : 0x100000 ≤ c
            · right; left; omega
            · right; right; omega
        have n6 : ContByte (0x80 + (c / 0x40) % 0x40) := by constructor <;> omega
        have n7 : ContByte (0x80 + c % 0x40) := by constructor <;> omega
        have n8 : (0xF0 + c / 0x40000 - 0xF0) * 0x40000 + (0x80 + (c / 0x1000) % 0x40 - 0x80) * 0x1000 +
            (0x80 + (c / 0x40) % 0x40 - 0x80) * 0x40 + (0x80 + c % 0x40 - 0x80) = c := by omega
        simp only [List.cons_append, List.nil_append]
        rw [utf8Lossy.eq_def]
        dsimp only
        rw [if_neg n1, if_neg n2, if_neg n3, if_pos n4, if_pos n5, if_pos n6, if_pos n7]
        simp only [n8]

theorem decode_encode_append (cs : List Nat) (h : ∀ c ∈ cs, IsScalar c) (rest : List Nat) :
    decodeUtf8 (utf8Encode cs ++ rest) = (decodeUtf8 rest).map (fun s => cs ++ s) := by
  induction cs with
  | nil =>
    simp only [utf8Encode, List.nil_append]
    cases decodeUtf8 rest <;> simp
  | cons c cs ih =>
    have hc : IsScalar c := h c (by simp)
    have hcs : ∀ x ∈ cs, IsScalar x := fun x hx => h x (by simp [hx])
    show decodeUtf8 ((utf8EncodeChar c ++ utf8Encode cs) ++ rest) = _
    rw [List.append_assoc, decode_encodeChar c hc, ih hcs]
    cases decodeUtf8 rest <;> simp

theorem lossy_encode_append (cs : List Nat) (h : ∀ c ∈ cs, IsScalar c) (rest : List Nat) :
    utf8Lossy (utf8Encode cs ++ rest) = cs ++ utf8Lossy rest := by
  induction cs with
  | nil => simp [utf8Encode]
  | cons c cs ih =>
    have hc : IsScalar c := h c (by simp)
    have hcs : ∀ x ∈ cs, IsScalar x := fun x hx => h x (by simp [hx])
    show utf8Lossy ((utf8EncodeChar c ++ utf8Encode cs) ++ rest) = _
    rw [List.append_assoc, lossy_encodeChar c hc, ih hcs]
    simp

theorem decode_encode (cs : List Nat) (h : ∀ c ∈ cs, IsScalar c) :
    decodeUtf8 (utf8Encode cs) = some cs := by
  have := decode_encode_append cs h []
  simpa [decodeUtf8] using this

theorem lossy_encode (cs : List Nat) (h : ∀ c ∈ cs, IsScalar c) :
    utf8Lossy (utf8Encode cs) = cs := by
  have := lossy_encode_append cs h []
  simpa [utf8Lossy] using this

theorem utf8Lossy_of_decode (bs : List Nat) :
    ∀ cs, decodeUtf8 bs = some cs → utf8Lossy bs = cs := by
  induction bs using decodeUtf8.induct with
  | case1 =>
    intro cs hdec
    rw [decodeUtf8.eq_def] at hdec
    dsimp only at hdec
    injection hdec with h
    rw [utf8Lossy.eq_def]
    dsimp only
    exact h
  | case2 b0 t0 hA ih =>
    intro cs hdec
    rw [decodeUtf8.eq_def] at hdec
    dsimp only at hdec
    rw [if_pos hA] at hdec
    obtain ⟨s, hs, hfs⟩ := Option.map_eq_some'.mp hdec
    rw [utf8Lossy.eq_def]
    dsimp only
    rw [if_pos hA, ih s hs]
    exact hfs
  | case3 b0 hA hr b1 t1 hc ih =>
    intro cs hdec
    rw [decodeUtf8.eq_def] at hdec
    dsimp only at hdec
    rw [if_neg hA, if_pos hr, if_pos hc] at hdec
    obtain ⟨s, hs, hfs⟩ := Option.map_eq_some'.mp hdec
    rw [utf8Lossy.eq_def]
    dsimp only
    rw [if_neg hA, if_pos hr, if_pos hc, ih s hs]
    exact hfs
  | case4 b0 hA hr b1 t1 hc =>
    intro cs hdec
    rw [decodeUtf8.eq_def] at hdec
    dsimp only at hdec
    rw [if_neg hA, if_pos hr, if_neg hc] at hdec
    exact absurd hdec (by simp)
  | case5 b0 hA hr =>
    intro cs hdec
    rw [decodeUtf8.eq_def] at hdec
    dsimp only at hdec
    rw [if_neg hA, if_pos hr] at hdec
    exact absurd hdec (by simp)
  | case6 b0 hA hr2 hr =>
    intro cs hdec
    rw [decodeUtf8.eq_def] at hdec
    dsimp only at hdec
    rw [if_neg hA, if_neg hr2, if_pos hr] at hdec
    exact absurd hdec (by simp)
  | case7 b0 hA hr2 hr b1 hc3 =>
    intro cs hdec
    rw [decodeUtf8.eq_def] at hdec
    dsimp only at hdec
    rw [if_neg hA, if_neg hr2, if_pos hr, if_pos hc3] at hdec
    exact absurd hdec (by simp)
  | case8 b0 hA hr2 hr b1 hc3 b2 t2 hc ih =>
    intro cs hdec
    rw [decodeUtf8.eq_def] at hdec
    dsimp only at hdec
    rw [if_neg hA, if_neg hr2, if_pos hr, if_pos hc3, if_pos hc] at hdec
    obtain ⟨s, hs, hfs⟩ := Option.map_eq_some'.mp hdec
    rw [utf8Lossy.eq_def]
    dsimp only
    rw [if_neg hA, if_neg hr2, if_pos hr, if_pos hc3, if_pos hc, ih s hs]
    exact hfs
  | case9 b0 hA hr2 hr b1 hc3 b2 t2 hc =>
    intro cs hdec
    rw [decodeUtf8.eq_def] at hdec
    dsimp only at hdec
    rw [if_neg hA, if_neg hr2, if_pos hr, if_pos hc3, if_neg hc] at hdec
    exact absurd hdec (by simp)
  | case10 b0 hA hr2 hr b1 t1 hc3 =>
    intro cs hdec
    rw [decodeUtf8.eq_def] at hdec
    dsimp only at hdec
    rw [if_neg hA, if_neg hr2, if_pos hr, if_neg hc3] at hdec
    exact absurd hdec (by simp)
  | case11 b0 hA hr2 hr3 hr =>
    intro cs hdec
    rw [decodeUtf8.eq_def] at hdec
    dsimp only at hdec
    rw [if_neg hA, if_neg hr2, if_neg hr3, if_pos hr] at hdec
    exact absurd hdec (by simp)
  | case12 b0 hA hr2 hr3 hr b1 hc4 =>
    intro cs hdec
    rw [decodeUtf8.eq_def] at hdec
    dsimp only at hdec
    rw [if_neg hA, if_neg hr2, if_neg hr3, if_pos hr, if_pos hc4] at hdec
    exact absurd hdec (by simp)
  | case13 b0 hA hr2 hr3 hr b1 hc4 b2 hc =>
    intro cs hdec
    rw [decodeUtf8.eq_def] at hdec
    dsimp only at hdec
    rw [if_neg hA, if_neg hr2, if_neg hr3, if_pos hr, if_pos hc4, if_pos hc] at hdec
    exact absurd hdec (by simp)
  | case14 b0 hA hr2 hr3 hr b1 hc4 b2 hc b3 t3 hc2 ih =>
    intro cs hdec
    rw [decodeUtf8.eq_def] at hdec
    dsimp only at hdec
    rw [if_neg hA, if_neg hr2, if_neg hr3, if_pos hr, if_pos hc4, if_pos hc, if_pos hc2] at hdec
    obtain ⟨s, hs, hfs⟩ := Option.map_eq_some'.mp hdec
    rw [utf8Lossy.eq_def]
    dsimp only
    rw [if_neg hA, if_neg hr2, if_neg hr3, if_pos hr, if_pos hc4, if_pos hc, if_pos hc2, ih s hs]
    exact hfs
  | case15 b0 hA hr2 hr3 hr b1 hc4 b2 hc b3 t3 hc2 =>
    intro cs hdec
    rw [decodeUtf8.eq_def] at hdec
    dsimp only at hdec
    rw [if_neg hA, if_neg hr2, if_neg hr3, if_pos hr, if_pos hc4, if_pos hc, if_neg hc2] at hdec
    exact absurd hdec (by simp)
  | case16 b0 hA hr2 hr3 hr b1 hc4 b2 t2 hc =>
    intro cs hdec
    rw [decodeUtf8.eq_def] at hdec
    dsimp only at hdec
    rw [if_neg hA, if_neg hr2, if_neg hr3, if_pos hr, if_pos hc4, if_neg hc] at hdec
    exact absurd hdec (by simp)
  | case17 b0 hA hr2 hr3 hr b1 t1 hc4 =>
    intro cs hdec
    rw [decodeUtf8.eq_def] at hdec
    dsimp only at hdec
    rw [if_neg hA, if_neg hr2, if_neg hr3, if_pos hr, if_neg hc4] at hdec
    exact absurd hdec (by simp)
  | case18 b0 t0 hA hr2 hr3 hr4 =>
    intro cs hdec
    rw [decodeUtf8.eq_def] at hdec
    dsimp only at hdec
    rw [if_neg hA, if_neg hr2, if_neg hr3, if_neg hr4] at hdec
    exact absurd hdec (by simp)

set_option maxRecDepth 16384 in
theorem utf8Lossy_scalar (bs : List Nat) : ∀ c ∈ utf8Lossy bs, IsScalar c := by
  induction bs using utf8Lossy.induct with
  | case1 =>
    intro c hmem
    rw [utf8Lossy.eq_def] at hmem
    dsimp only at hmem
    simp at hmem
  | case2 b0 t0 hA ih =>
    intro c hmem
    rw [utf8Lossy.eq_def] at hmem
    dsimp only at hmem
    rw [if_pos hA] at hmem
    rcases List.mem_cons.mp hmem with rfl | hmem
    · omega
    · exact ih c hmem
  | case3 b0 hA hr =>
    intro c hmem
    rw [utf8Lossy.eq_def] at hmem
    dsimp only at hmem
    rw [if_neg hA, if_pos hr] at hmem
    simp at hmem
    omega
  | case4 b0 hA hr b1 t1 hc ih =>
    intro c hmem
    rw [utf8Lossy.eq_def] at hmem
    dsimp only at hmem
    rw [if_neg hA, if_pos hr, if_pos hc] at hmem
    rcases List.mem_cons.mp hmem with rfl | hmem
    · omega
    · exact ih c hmem
  | case5 b0 hA hr b1 t1 hc ih =>
    intro c hmem
    rw [utf8Lossy.eq_def] at hmem
    dsimp only at hmem
    rw [if_neg hA, if_pos hr, if_neg hc] at hmem
    rcases List.mem_cons.mp hmem with rfl | hmem
    · omega
    · exact ih c hmem
  | case6 b0 hA hr2 hr =>
    intro c hmem
    rw [utf8Lossy.eq_def] at hmem
    dsimp only at hmem
    rw [if_neg hA, if_neg hr2, if_pos hr] at hmem
    simp at hmem
    omega
  | case7 b0 hA hr2 hr b1 hc3 =>
    intro c hmem
    rw [utf8Lossy.eq_def] at hmem
    dsimp only at hmem
    rw [if_neg hA, if_neg hr2, if_pos hr, if_pos hc3] at hmem
    simp at hmem
    omega
  | case8 b0 hA hr2 hr b1 hc3 b2 t2 hc ih =>
    intro c hmem
    rw [utf8Lossy.eq_def] at hmem
    dsimp only at hmem
    rw [if_neg hA, if_neg hr2, if_pos hr, if_pos hc3, if_pos hc] at hmem
    rcases List.mem_cons.mp hmem with rfl | hmem
    · omega
    · exact ih c hmem
  | case9 b0 hA hr2 hr b1 hc3 b2 t2 hc ih =>
    intro c hmem
    rw [utf8Lossy.eq_def] at hmem
    dsimp only at hmem
    rw [if_neg hA, if_neg hr2, if_pos hr, if_pos hc3, if_neg hc] at hmem
    rcases List.mem_cons.mp hmem with rfl | hmem
    · omega
    · exact ih c hmem
  | case10 b0 hA hr2 hr b1 t1 hc3 ih =>
    intro c hmem
    rw [utf8Lossy.eq_def] at hmem
    dsimp only at hmem
    rw [if_neg hA, if_neg hr2, if_pos hr, if_neg hc3] at hmem
    rcases List.mem_cons.mp hmem with rfl | hmem
    · omega
    · exact ih c hmem
  | case11 b0 hA hr2 hr3 hr =>
    intro c hmem
    rw [utf8Lossy.eq_def] at hmem
    dsimp only at hmem
    rw [if_neg hA, if_neg hr2, if_neg hr3, if_pos hr] at hmem
    simp at hmem
    omega
  | case12 b0 hA hr2 hr3 hr b1 hc4 =>
    intro c hmem
    rw [utf8Lossy.eq_def] at hmem
    dsimp only at hmem
    rw [if_neg hA, if_neg hr2, if_neg hr3, if_pos hr, if_pos hc4] at hmem
    simp at hmem
    omega
  | case13 b0 hA hr2 hr3 hr b1 hc4 b2 hc =>
    intro c hmem
    rw [utf8Lossy.eq_def] at hmem
    dsimp only at hmem
    rw [if_neg hA, if_neg hr2, if_neg hr3, if_pos hr, if_pos hc4, if_pos hc] at hmem
    simp at hmem
    omega
  | case14 b0 hA hr2 hr3 hr b1 hc4 b2 hc b3 t3 hc2 ih =>
    intro c hmem
    rw [utf8Lossy.eq_def] at hmem
    dsimp only at hmem
    rw [if_neg hA, if_neg hr2, if_neg hr3, if_pos hr, if_pos hc4, if_pos hc, if_pos hc2] at hmem
    rcases List.mem_cons.mp hmem with rfl | hmem
    · omega
    · exact ih c hmem
  | case15 b0 hA hr2 hr3 hr b1 hc4 b2 hc b3 t3 hc2 ih =>
    intro c hmem
    rw [utf8Lossy.eq_def] at hmem
    dsimp only at hmem
    rw [if_neg hA, if_neg hr2, if_neg hr3, if_pos hr, if_pos hc4, if_pos hc, if_neg hc2] at hmem
    rcases List.mem_cons.mp hmem with rfl | hmem
    · omega
    · exact ih c hmem
  | case16 b0 hA hr2 hr3 hr b1 hc4 b2 t2 hc ih =>
    intro c hmem
    rw [utf8Lossy.eq_def] at hmem
    dsimp only at hmem
    rw [if_neg hA, if_neg hr2, if_neg hr3, if_pos hr, if_pos hc4, if_neg hc] at hmem
    rcases List.mem_cons.mp hmem with rfl | hmem
    · omega
    · exact ih c hmem
  | case17 b0 hA hr2 hr3 hr b1 t1 hc4 ih =>
    intro c hmem
    rw [utf8Lossy.eq_def] at hmem
    dsimp only at hmem
    rw [if_neg hA, if_neg hr2, if_neg hr3, if_pos hr, if_neg hc4] at hmem
    rcases List.mem_cons.mp hmem with rfl | hmem
    · omega
    · exact ih c hmem
  | case18 b0 t0 hA hr2 hr3 hr4 ih =>
    intro c hmem
    rw [utf8Lossy.eq_def] at hmem
    dsimp only at hmem
    rw [if_neg hA, if_neg hr2, if_neg hr3, if_neg hr4] at hmem
    rcases List.mem_cons.mp hmem with rfl | hmem
    · omega
    · exact ih c hmem

set_option maxRecDepth 16384 in
theorem fffd_mem_utf8Lossy (bs : List Nat) :
    decodeUtf8 bs = none → 0xFFFD ∈ utf8Lossy bs := by
  induction bs using utf8Lossy.induct with
  | case1 =>
    intro hdec
    rw [decodeUtf8.eq_def] at hdec
    dsimp only at hdec
    exact absurd hdec (by simp)
  | case2 b0 t0 hA ih =>
    intro hdec
    rw [decodeUtf8.eq_def] at hdec
    dsimp only at hdec
    rw [if_pos hA, Option.map_eq_none'] at hdec
    rw [utf8Lossy.eq_def]
    dsimp only
    rw [if_pos hA]
    exact List.mem_cons_of_mem _ (ih hdec)
  | case3 b0 hA hr =>
    intro hdec
    rw [utf8Lossy.eq_def]
    dsimp only
    rw [if_neg hA, if_pos hr]
    simp
  | case4 b0 hA hr b1 t1 hc ih =>
    intro hdec
    rw [decodeUtf8.eq_def] at hdec
    dsimp only at hdec
    rw [if_neg hA, if_pos hr, if_pos hc, Option.map_eq_none'] at hdec
    rw [utf8Lossy.eq_def]
    dsimp only
    rw [if_neg hA, if_pos hr, if_pos hc]
    exact List.mem_cons_of_mem _ (ih hdec)
  | case5 b0 hA hr b1 t1 hc ih =>
    intro hdec
    rw [utf8Lossy.eq_def]
    dsimp only
    rw [if_neg hA, if_pos hr, if_neg hc]
    exact List.mem_cons_self _ _
  | case6 b0 hA hr2 hr =>
    intro hdec
    rw [utf8Lossy.eq_def]
    dsimp only
    rw [if_neg hA, if_neg hr2, if_pos hr]
    simp
  | case7 b0 hA hr2 hr b1 hc3 =>
    intro hdec
    rw [utf8Lossy.eq_def]
    dsimp only
    rw [if_neg hA, if_neg hr2, if_pos hr, if_pos hc3]
    simp
  | case8 b0 hA hr2 hr b1 hc3 b2 t2 hc ih =>
    intro hdec
    rw [decodeUtf8.eq_def] at hdec
    dsimp only at hdec
    rw [if_neg hA, if_neg hr2, if_pos hr, if_pos hc3, if_pos hc, Option.map_eq_none'] at hdec
    rw [utf8Lossy.eq_def]
    dsimp only
    rw [if_neg hA, if_neg hr2, if_pos hr, if_pos hc3, if_pos hc]
    exact List.mem_cons_of_mem _ (ih hdec)
  | case9 b0 hA hr2 hr b1 hc3 b2 t2 hc ih =>
    intro hdec
    rw [utf8Lossy.eq_def]
    dsimp only
    rw [if_neg hA, if_neg hr2, if_pos hr, if_pos hc3, if_neg hc]
    exact List.mem_cons_self _ _
  | case10 b0 hA hr2 hr b1 t1 hc3 ih =>
    intro hdec
    rw [utf8Lossy.eq_def]
    dsimp only
    rw [if_neg hA, if_neg hr2, if_pos hr, if_neg hc3]
    exact List.mem_cons_self _ _
  | case11 b0 hA hr2 hr3 hr =>
    intro hdec
    rw [utf8Lossy.eq_def]
    dsimp only
    rw [if_neg hA, if_neg hr2, if_neg hr3, if_pos hr]
    simp
  | case12 b0 hA hr2 hr3 hr b1 hc4 =>
    intro hdec
    rw [utf8Lossy.eq_def]
    dsimp only
    rw [if_neg hA, if_neg hr2, if_neg hr3, if_pos hr, if_pos hc4]
    simp
  | case13 b0 hA hr2 hr3 hr b1 hc4 b2 hc =>
    intro hdec
    rw [utf8Lossy.eq_def]
    dsimp only
    rw [if_neg hA, if_neg hr2, if_neg hr3, if_pos hr, if_pos hc4, if_pos hc]
    simp
  | case14 b0 hA hr2 hr3 hr b1 hc4 b2 hc b3 t3 hc2 ih =>
    intro hdec
    rw [decodeUtf8.eq_def] at hdec
    dsimp only at hdec
    rw [if_neg hA, if_neg hr2, if_neg hr3, if_pos hr, if_pos hc4, if_pos hc, if_pos hc2,
      Option.map_eq_none'] at hdec
    rw [utf8Lossy.eq_def]
    dsimp only
    rw [if_neg hA, if_neg hr2, if_neg hr3, if_pos hr, if_pos hc4, if_pos hc, if_pos hc2]
    exact List.mem_cons_of_mem _ (ih hdec)
  | case15 b0 hA hr2 hr3 hr b1 hc4 b2 hc b3 t3 hc2 ih =>
    intro hdec
    rw [utf8Lossy.eq_def]
    dsimp only
    rw [if_neg hA, if_neg hr2, if_neg hr3, if_pos hr, if_pos hc4, if_pos hc, if_neg hc2]
    exact List.mem_cons_self _ _
  | case16 b0 hA hr2 hr3 hr b1 hc4 b2 t2 hc ih =>
    intro hdec
    rw [utf8Lossy.eq_def]
    dsimp only
    rw [if_neg hA, if_neg hr2, if_neg hr3, if_pos hr, if_pos hc4, if_neg hc]
    exact List.mem_cons_self _ _
  | case17 b0 hA hr2 hr3 hr b1 t1 hc4 ih =>
    intro hdec
    rw [utf8Lossy.eq_def]
    dsimp only
    rw [if_neg hA, if_neg hr2, if_neg hr3, if_pos hr, if_neg hc4]
    exact List.mem_cons_self _ _
  | case18 b0 t0 hA hr2 hr3 hr4 ih =>
    intro hdec
    rw [utf8Lossy.eq_def]
    dsimp only
    rw [if_neg hA, if_neg hr2, if_neg hr3, if_neg hr4]
    exact List.mem_cons_self _ _

set_option maxRecDepth 16384 in
theorem decode_zero_mem (bs : List Nat) :
    ∀ cs, decodeUtf8 bs = some cs → 0 ∈ cs → 0 ∈ bs := by
  induction bs using decodeUtf8.induct with
  | case1 =>
    intro cs hdec hz
    rw [decodeUtf8.eq_def] at hdec
    dsimp only at hdec
    injection hdec with h
    rw [← h] at hz
    simp at hz
  | case2 b0 t0 hA ih =>
    intro cs hdec hz
    rw [decodeUtf8.eq_def] at hdec
    dsimp only at hdec
    rw [if_pos hA] at hdec
    obtain ⟨s, hs, hfs⟩ := Option.map_eq_some'.mp hdec
    rw [← hfs] at hz
    rcases List.mem_cons.mp hz with h0 | hz
    · rw [h0]
      exact List.mem_cons_self _ _
    · exact List.mem_cons_of_mem _ (ih s hs hz)
  | case3 b0 hA hr b1 t1 hc ih =>
    intro cs hdec hz
    rw [decodeUtf8.eq_def] at hdec
    dsimp only at hdec
    rw [if_neg hA, if_pos hr, if_pos hc] at hdec
    obtain ⟨s, hs, hfs⟩ := Option.map_eq_some'.mp hdec
    rw [← hfs] at hz
    rcases List.mem_cons.mp hz with h0 | hz
    · exfalso; omega
    · exact List.mem_cons_of_mem _ (List.mem_cons_of_mem _ (ih s hs hz))
  | case4 b0 hA hr b1 t1 hc =>
    intro cs hdec hz
    rw [decodeUtf8.eq_def] at hdec
    dsimp only at hdec
    rw [if_neg hA, if_pos hr, if_neg hc] at hdec
    exact absurd hdec (by simp)
  | case5 b0 hA hr =>
    intro cs hdec hz
    rw [decodeUtf8.eq_def] at hdec
    dsimp only at hdec
    rw [if_neg hA, if_pos hr] at hdec
    exact absurd hdec (by simp)
  | case6 b0 hA hr2 hr =>
    intro cs hdec hz
    rw [decodeUtf8.eq_def] at hdec
    dsimp only at hdec
    rw [if_neg hA, if_neg hr2, if_pos hr] at hdec
    exact absurd hdec (by simp)
  | case7 b0 hA hr2 hr b1 hc3 =>
    intro cs hdec hz
    rw [decodeUtf8.eq_def] at hdec
    dsimp only at hdec
    rw [if_neg hA, if_neg hr2, if_pos hr, if_pos hc3] at hdec
    exact absurd hdec (by simp)
  | case8 b0 hA hr2 hr b1 hc3 b2 t2 hc ih =>
    intro cs hdec hz
    rw [decodeUtf8.eq_def] at hdec
    dsimp only at hdec
    rw [if_neg hA, if_neg hr2, if_pos hr, if_pos hc3, if_pos hc] at hdec
    obtain ⟨s, hs, hfs⟩ := Option.map_eq_some'.mp hdec
    rw [← hfs] at hz
    rcases List.mem_cons.mp hz with h0 | hz
    · exfalso; omega
    · exact List.mem_cons_of_mem _ (List.mem_cons_of_mem _ (List.mem_cons_of_mem _ (ih s hs hz)))
  | case9 b0 hA hr2 hr b1 hc3 b2 t2 hc =>
    intro cs hdec hz
    rw [decodeUtf8.eq_def] at hdec
    dsimp only at hdec
    rw [if_neg hA, if_neg hr2, if_pos hr, if_pos hc3, if_neg hc] at hdec
    exact absurd hdec (by simp)
  | case10 b0 hA hr2 hr b1 t1 hc3 =>
    intro cs hdec hz
    rw [decodeUtf8.eq_def] at hdec
    dsimp only at hdec
    rw [if_neg hA, if_neg hr2, if_pos hr, if_neg hc3] at hdec
    exact absurd hdec (by simp)
  | case11 b0 hA hr2 hr3 hr =>
    intro cs hdec hz
    rw [decodeUtf8.eq_def] at hdec
    dsimp only at hdec
    rw [if_neg hA, if_neg hr2, if_neg hr3, if_pos hr] at hdec
    exact absurd hdec (by simp)
  | case12 b0 hA hr2 hr3 hr b1 hc4 =>
    intro cs hdec hz
    rw [decodeUtf8.eq_def] at hdec
    dsimp only at hdec
    rw [if_neg hA, if_neg hr2, if_neg hr3, if_pos hr, if_pos hc4] at hdec
    exact absurd hdec (by simp)
  | case13 b0 hA hr2 hr3 hr b1 hc4 b2 hc =>
    intro cs hdec hz
    rw [decodeUtf8.eq_def] at hdec
    dsimp only at hdec
    rw [if_neg hA, if_neg hr2, if_neg hr3, if_pos hr, if_pos hc4, if_pos hc] at hdec
    exact absurd hdec (by simp)
  | case14 b0 hA hr2 hr3 hr b1 hc4 b2 hc b3 t3 hc2 ih =>
    intro cs hdec hz
    rw [decodeUtf8.eq_def] at hdec
    dsimp only at hdec
    rw [if_neg hA, if_neg hr2, if_neg hr3, if_pos hr, if_pos hc4, if_pos hc, if_pos hc2] at hdec
    obtain ⟨s, hs, hfs⟩ := Option.map_eq_some'.mp hdec
    rw [← hfs] at hz
    rcases List.mem_cons.mp hz with h0 | hz
    · exfalso; omega
    · exact List.mem_cons_of_mem _ (List.mem_cons_of_mem _ (List.mem_cons_of_mem _
        (List.mem_cons_of_mem _ (ih s hs hz))))
  | case15 b0 hA hr2 hr3 hr b1 hc4 b2 hc b3 t3 hc2 =>
    intro cs hdec hz
    rw [decodeUtf8.eq_def] at hdec
    dsimp only at hdec
    rw [if_neg hA, if_neg hr2, if_neg hr3, if_pos hr, if_pos hc4, if_pos hc, if_neg hc2] at hdec
    exact absurd hdec (by simp)
  | case16 b0 hA hr2 hr3 hr b1 hc4 b2 t2 hc =>
    intro cs hdec hz
    rw [decodeUtf8.eq_def] at hdec
    dsimp only at hdec
    rw [if_neg hA, if_neg hr2, if_neg hr3, if_pos hr, if_pos hc4, if_neg hc] at hdec
    exact absurd hdec (by simp)
  | case17 b0 hA hr2 hr3 hr b1 t1 hc4 =>
    intro cs hdec hz
    rw [decodeUtf8.eq_def] at hdec
    dsimp only at hdec
    rw [if_neg hA, if_neg hr2, if_neg hr3, if_pos hr, if_neg hc4] at hdec
    exact absurd hdec (by simp)
  | case18 b0 t0 hA hr2 hr3 hr4 =>
    intro cs hdec hz
    rw [decodeUtf8.eq_def] at hdec
    dsimp only at hdec
    rw [if_neg hA, if_neg hr2, if_neg hr3, if_neg hr4] at hdec
    exact absurd hdec (by simp)

theorem decode_scalar (bs cs : List Nat) (h : decodeUtf8 bs = some cs) :
    ∀ c ∈ cs, IsScalar c := by
  rw [← utf8Lossy_of_decode bs cs h]
  exact utf8Lossy_scalar bs

theorem decode_none_ne_nil (bs : List Nat) (h : decodeUtf8 bs = none) : bs ≠ [] := by
  intro hnil
  rw [hnil] at h
  rw [decodeUtf8.eq_def] at h
  dsimp only at h
  exact absurd h (by simp)

theorem local_to_str_of_decode (bs cs : List Nat) (h : decodeUtf8 bs = some cs) :
    local_to_str bs = cs := by
  unfold local_to_str
  rw [h]

theorem local_to_str_of_decode_none (bs : List Nat) (h : decodeUtf8 bs = none) :
    local_to_str bs = List.replicate bs.length 0xFFFD := by
  unfold local_to_str
  rw [h]

theorem local_to_str_scalar (bs : List Nat) : ∀ c ∈ local_to_str bs, IsScalar c := by
  unfold local_to_str
  cases hd : decodeUtf8 bs with
  | none =>
    intro c hc
    rw [List.eq_of_mem_replicate hc]
    exact ⟨by omega, by omega⟩
  | some s => exact decode_scalar bs s hd

theorem intoString_CString_eq_local (c : CStrM) :
    intoString_CString c = local_to_str c.to_bytes := by
  unfold intoString_CString CString.std_into_string local_to_str
  cases hd : decodeUtf8 c.to_bytes <;> simp [hd]

theorem intoString_OsString_eq_lossy (o : OsStrM) :
    intoString_OsString o = utf8Lossy o := by
  unfold intoString_OsString OsString.std_into_string to_string_lossy
  cases hd : decodeUtf8 o with
  | none => simp
  | some s =>
    simp
    exact (utf8Lossy_of_decode o s hd).symm

theorem dropLast_append_nul (l : List Nat) : (l ++ [0]).dropLast = l := by
  simp

theorem zero_not_mem_local_to_str (bs : List Nat) (h : ∀ b ∈ bs, b ≠ 0) :
    0 ∉ local_to_str bs := by
  unfold local_to_str
  cases hd : decodeUtf8 bs with
  | none =>
    intro hz
    have := List.eq_of_mem_replicate hz
    omega
  | some s =>
    intro hz
    exact absurd rfl (h 0 (decode_zero_mem bs s hd hz))

theorem decode_invalid_leader (b : Nat) (h : 0xF4 < b) (rest : List Nat) :
    decodeUtf8 (b :: rest) = none := by
  rw [decodeUtf8.eq_def]
  dsimp only
  rw [if_neg (by omega), if_neg (by omega), if_neg (by omega), if_neg (by omega)]

theorem lossy_invalid_leader (b : Nat) (h : 0xF4 < b) (rest : List Nat) :
    utf8Lossy (b :: rest) = 0xFFFD :: utf8Lossy rest := by
  rw [utf8Lossy.eq_def]
  dsimp only
  rw [if_neg (by omega), if_neg (by omega), if_neg (by omega), if_neg (by omega)]

/-- C1: for every input whose content is valid UTF-8, `into_string`
returns exactly that text; in particular `into_string` on a `String` is
the identity, and `CStr`, `CString`, `OsStr`, `str` and `Cow` values
whose bytes encode the scalar values `cs` all come back as `cs`. -/
theorem c1_valid_utf8_roundtrip (cs : RStr) (h : ∀ c ∈ cs, IsScalar c) :
    intoString_String cs = cs ∧
    intoString_StrRef1 cs = cs ∧
    intoString_CowStr (CowM.owned cs) = cs ∧
    intoString_CowStr (CowM.borrowed cs) = cs ∧
    intoString_CStrRef1 ⟨utf8Encode cs ++ [0]⟩ = cs ∧
    intoString_CString ⟨utf8Encode cs ++ [0]⟩ = cs ∧
    intoString_CowCStr (CowM.borrowed ⟨utf8Encode cs ++ [0]⟩) = cs ∧
    intoString_OsStrRef1 (utf8Encode cs) = cs ∧
    intoString_OsString (utf8Encode cs) = cs ∧
    intoString_CowOsStr (CowM.borrowed (utf8Encode cs)) = cs := by
  have hb : (CStrM.mk (utf8Encode cs ++ [0])).to_bytes = utf8Encode cs := by
    unfold CStrM.to_bytes
    exact dropLast_append_nul _
  have hdec := decode_encode cs h
  have hloc : local_to_str (utf8Encode cs) = cs := local_to_str_of_decode _ _ hdec
  have hlossy : utf8Lossy (utf8Encode cs) = cs := lossy_encode cs h
  refine ⟨rfl, rfl, rfl, rfl, ?_, ?_, ?_, ?_, ?_, ?_⟩
  · unfold intoString_CStrRef1
    rw [hb, hloc]
  · rw [intoString_CString_eq_local, hb, hloc]
  · simp only [intoString_CowCStr]
    rw [hb, hloc]
  · unfold intoString_OsStrRef1 to_string_lossy
    rw [hlossy]
  · rw [intoString_OsString_eq_lossy, hlossy]
  · simp only [intoString_CowOsStr]
    unfold to_string_lossy
    rw [hlossy]

/-- Witness for C1 at the text "H€". -/
theorem c1_valid_utf8_roundtrip_witness :
    intoString_CString ⟨utf8Encode [0x48, 0x20AC] ++ [0]⟩ = [0x48, 0x20AC] :=
  (c1_valid_utf8_roundtrip [0x48, 0x20AC] (by decide)).2.2.2.2.2.1

/-- C2: on input bytes that are not valid UTF-8, `into_string`
substitutes U+FFFD and still returns an owned `String` of scalar values:
the replacement character appears in the output of both the `OsStr`
family and the `CStr` family, and no invalid content leaks through. -/
theorem c2_invalid_bytes_substituted (bs : List Nat) (h : decodeUtf8 bs = none) :
    0xFFFD ∈ intoString_OsStrRef1 bs ∧
    (∀ c ∈ intoString_OsStrRef1 bs, IsScalar c) ∧
    0xFFFD ∈ intoString_CStrRef1 ⟨bs ++ [0]⟩ ∧
    (∀ c ∈ intoString_CStrRef1 ⟨bs ++ [0]⟩, IsScalar c) := by
  have hb : (CStrM.mk (bs ++ [0])).to_bytes = bs := by
    unfold CStrM.to_bytes
    exact dropLast_append_nul _
  refine ⟨fffd_mem_utf8Lossy bs h, utf8Lossy_scalar bs, ?_, ?_⟩
  · unfold intoString_CStrRef1
    rw [hb, local_to_str_of_decode_none bs h]
    have hne := decode_none_ne_nil bs h
    exact List.mem_replicate.mpr ⟨by simpa [List.length_eq_zero] using hne, rfl⟩
  · unfold intoString_CStrRef1
    rw [hb]
    exact local_to_str_scalar bs

/-- Witness for C2 at the invalid byte list `[0x41, 0xFF]`. -/
theorem c2_invalid_bytes_substituted_witness :
    0xFFFD ∈ intoString_OsStrRef1 [0x41, 0xFF] :=
  (c2_invalid_bytes_substituted [0x41, 0xFF] (by simp +decide [decodeUtf8])).1

/-- C3: `into_string` is total: every implementation yields a `String`
(a list of Unicode scalar values) on every input, with no error value;
for the byte-based families this holds unconditionally, and for the
`String`/`str`/`Cow` of `str` family it preserves well-formedness. -/
theorem c3_total_no_error (c : CStrM) (o : OsStrM) (s : RStr)
    (w : CowM CStrM) (v : CowM OsStrM) (u : CowM RStr) :
    (∀ x ∈ intoString_CString c, IsScalar x) ∧
    (∀ x ∈ intoString_CStrRef1 c, IsScalar x) ∧
    (∀ x ∈ intoString_CowCStr w, IsScalar x) ∧
    (∀ x ∈ intoString_OsString o, IsScalar x) ∧
    (∀ x ∈ intoString_OsStrRef1 o, IsScalar x) ∧
    (∀ x ∈ intoString_CowOsStr v, IsScalar x) ∧
    ((∀ x ∈ s, IsScalar x) → ∀ x ∈ intoString_String s, IsScalar x) ∧
    ((∀ x ∈ u.deref, IsScalar x) → ∀ x ∈ intoString_CowStr u, IsScalar x) := by
  refine ⟨?_, ?_, ?_, ?_, ?_, ?_, fun hs => hs, ?_⟩
  · rw [intoString_CString_eq_local]
    exact local_to_str_scalar _
  · exact local_to_str_scalar _
  · cases w with
    | owned x =>
      simp only [intoString_CowCStr]
      rw [intoString_CString_eq_local]
      exact local_to_str_scalar _
    | borrowed x => exact local_to_str_scalar _
  · rw [intoString_OsString_eq_lossy]
    exact utf8Lossy_scalar _
  · exact utf8Lossy_scalar _
  · cases v with
    | owned x =>
      simp only [intoString_CowOsStr]
      rw [intoString_OsString_eq_lossy]
      exact utf8Lossy_scalar _
    | borrowed x => exact utf8Lossy_scalar _
  · cases u with
    | owned x => exact fun hs => hs
    | borrowed x => exact fun hs => hs

/-- Witness for C3 at concrete inputs. -/
theorem c3_total_no_error_witness :
    ∀ x ∈ intoString_String [0x41], IsScalar x :=
  (c3_total_no_error ⟨[0]⟩ [] [0x41] (CowM.owned ⟨[0]⟩) (CowM.owned [])
    (CowM.owned [0x41])).2.2.2.2.2.2.1 (by decide)

/-- C4: for owned `CString` and `OsString` inputs, `into_string` first
attempts the standard checked conversion and, exactly when it fails,
falls back to replacement of invalid content over the same bytes. -/
theorem c4_checked_then_fallback (c : CStrM) (o : OsStrM) :
    (∀ s, CString.std_into_string c = Except.ok s → intoString_CString c = s) ∧
    (∀ e, CString.std_into_string c = Except.error e →
      intoString_CString c = local_to_str e.to_bytes ∧
      intoString_CString c = List.replicate c.to_bytes.length 0xFFFD) ∧
    (∀ s, OsString.std_into_string o = Except.ok s → intoString_OsString o = s) ∧
    (∀ e, OsString.std_into_string o = Except.error e →
      intoString_OsString o = to_string_lossy e) := by
  refine ⟨?_, ?_, ?_, ?_⟩
  · intro s hs
    simp only [intoString_CString, hs]
  · intro e he
    have hdn : decodeUtf8 c.to_bytes = none := by
      unfold CString.std_into_string at he
      cases hd : decodeUtf8 c.to_bytes with
      | some s =>
        rw [hd] at he
        simp at he
      | none => rfl
    constructor
    · simp only [intoString_CString, he]
    · rw [intoString_CString_eq_local, local_to_str_of_decode_none _ hdn]
  · intro s hs
    simp only [intoString_OsString, hs]
  · intro e he
    simp only [intoString_OsString, he]

/-- Witness for C4 at the invalid `CString` with content byte 0xFF. -/
theorem c4_checked_then_fallback_witness :
    intoString_CString ⟨[0xFF, 0]⟩ =
      List.replicate (CStrM.mk [0xFF, 0]).to_bytes.length 0xFFFD :=
  ((c4_checked_then_fallback ⟨[0xFF, 0]⟩ []).2.1 ⟨[0xFF, 0]⟩
    (by simp +decide [CString.std_into_string, CStrM.to_bytes, decodeUtf8])).2

/-- C5: one canonical result per value, regardless of ownership level:
the owned value, `Cow` wrappers of it (owned or borrowed) and references
up to five levels deep all produce the same `String` content, within
each of the `CStr`, `OsStr` and `String`/`str` families. -/
theorem c5_ownership_invariance (c : CStrM) (o : OsStrM) (s : RStr) :
    ((intoString_CString c = local_to_str c.to_bytes ∧
    intoString_CStringRef1 c = local_to_str c.to_bytes ∧
    intoString_CStringRef2 c = local_to_str c.to_bytes ∧
    intoString_CStringRef3 c = local_to_str c.to_bytes ∧
    intoString_CStringRef4 c = local_to_str c.to_bytes ∧
    intoString_CStringRef5 c = local_to_str c.to_bytes ∧
    intoString_CStrRef1 c = local_to_str c.to_bytes ∧
    intoString_CStrRef2 c = local_to_str c.to_bytes ∧
    intoString_CStrRef3 c = local_to_str c.to_bytes ∧
    intoString_CStrRef4 c = local_to_str c.to_bytes ∧
    intoString_CStrRef5 c = local_to_str c.to_bytes ∧
    intoString_CowCStr (CowM.owned c) = local_to_str c.to_bytes ∧
    intoString_CowCStr (CowM.borrowed c) = local_to_str c.to_bytes ∧
    intoString_CowCStrRef1 (CowM.owned c) = local_to_str c.to_bytes ∧
    intoString_CowCStrRef1 (CowM.borrowed c) = local_to_str c.to_bytes ∧
    intoString_CowCStrRef2 (CowM.owned c) = local_to_str c.to_bytes ∧
    intoString_CowCStrRef2 (CowM.borrowed c) = local_to_str c.to_bytes ∧
    intoString_CowCStrRef3 (CowM.owned c) = local_to_str c.to_bytes ∧
    intoString_CowCStrRef3 (CowM.borrowed c) = local_to_str c.to_bytes ∧
    intoString_CowCStrRef4 (CowM.owned c) = local_to_str c.to_bytes ∧
    intoString_CowCStrRef4 (CowM.borrowed c) = local_to_str c.to_bytes) ∧
    (intoString_OsString o = utf8Lossy o ∧
    intoString_OsStringRef1 o = utf8Lossy o ∧
    intoString_OsStringRef2 o = utf8Lossy o ∧
    intoString_OsStringRef3 o = utf8Lossy o ∧
    intoString_OsStringRef4 o = utf8Lossy o ∧
    intoString_OsStringRef5 o = utf8Lossy o ∧
    intoString_OsStrRef1 o = utf8Lossy o ∧
    intoString_OsStrRef2 o = utf8Lossy o ∧
    intoString_OsStrRef3 o = utf8Lossy o ∧
    intoString_OsStrRef4 o = utf8Lossy o ∧
    intoString_OsStrRef5 o = utf8Lossy o ∧
    intoString_CowOsStr (CowM.owned o) = utf8Lossy o ∧
    intoString_CowOsStr (CowM.borrowed o) = utf8Lossy o ∧
    intoString_CowOsStrRef1 (CowM.owned o) = utf8Lossy o ∧
    intoString_CowOsStrRef1 (CowM.borrowed o) = utf8Lossy o ∧
    intoString_CowOsStrRef2 (CowM.owned o) = utf8Lossy o ∧
    intoString_CowOsStrRef2 (CowM.borrowed o) = utf8Lossy o ∧
    intoString_CowOsStrRef3 (CowM.owned o) = utf8Lossy o ∧
    intoString_CowOsStrRef3 (CowM.borrowed o) = utf8Lossy o ∧
    intoString_CowOsStrRef4 (CowM.owned o) = utf8Lossy o ∧
    intoString_CowOsStrRef4 (CowM.borrowed o) = utf8Lossy o ∧
    intoString_CowOsStrRef5 (CowM.owned o) = utf8Lossy o ∧
    intoString_CowOsStrRef5 (CowM.borrowed o) = utf8Lossy o) ∧
    (intoString_String s = s ∧
    intoString_StringRef1 s = s ∧
    intoString_StringRef2 s = s ∧
    intoString_StringRef3 s = s ∧
    intoString_StringRef4 s = s ∧
    intoString_StringRef5 s = s ∧
    intoString_StrRef1 s = s ∧
    intoString_StrRef2 s = s ∧
    intoString_StrRef3 s = s ∧
    intoString_StrRef4 s = s ∧
    intoString_StrRef5 s = s ∧
    intoString_CowStr (CowM.owned s) = s ∧
    intoString_CowStr (CowM.borrowed s) = s ∧
    intoString_CowStrRef1 (CowM.owned s) = s ∧
    intoString_CowStrRef1 (CowM.borrowed s) = s ∧
    intoString_CowStrRef2 (CowM.owned s) = s ∧
    intoString_CowStrRef2 (CowM.borrowed s) = s ∧
    intoString_CowStrRef3 (CowM.owned s) = s ∧
    intoString_CowStrRef3 (CowM.borrowed s) = s ∧
    intoString_CowStrRef4 (CowM.owned s) = s ∧
    intoString_CowStrRef4 (CowM.borrowed s) = s ∧
    intoString_CowStrRef5 (CowM.owned s) = s ∧
    intoString_CowStrRef5 (CowM.borrowed s) = s)) := by
  refine ⟨?_, ?_, ?_⟩ <;> (repeat' apply And.intro) <;>
    simp [intoString_CString_eq_local, intoString_OsString_eq_lossy, intoString_CowCStr,
      intoString_CowOsStr, intoString_CowStr, CowM.deref, to_string_lossy,
      intoString_CStringRef1, intoString_CStringRef2, intoString_CStringRef3, intoString_CStringRef4, intoString_CStringRef5,
      intoString_CStrRef1, intoString_CStrRef2, intoString_CStrRef3, intoString_CStrRef4, intoString_CStrRef5,
      intoString_CowCStrRef1, intoString_CowCStrRef2, intoString_CowCStrRef3, intoString_CowCStrRef4,
      intoString_OsStringRef1, intoString_OsStringRef2, intoString_OsStringRef3, intoString_OsStringRef4, intoString_OsStringRef5,
      intoString_OsStrRef1, intoString_OsStrRef2, intoString_OsStrRef3, intoString_OsStrRef4, intoString_OsStrRef5,
      intoString_CowOsStrRef1, intoString_CowOsStrRef2, intoString_CowOsStrRef3, intoString_CowOsStrRef4, intoString_CowOsStrRef5,
      intoString_String, intoString_StringRef1, intoString_StringRef2, intoString_StringRef3, intoString_StringRef4, intoString_StringRef5,
      intoString_StrRef1, intoString_StrRef2, intoString_StrRef3, intoString_StrRef4, intoString_StrRef5,
      intoString_CowStrRef1, intoString_CowStrRef2, intoString_CowStrRef3, intoString_CowStrRef4, intoString_CowStrRef5]

/-- C6: `into_string` is a pure, stateless transformation: two runs on
equal inputs return equal outputs (determinism as a two-run property);
in this embedding every implementation is a function of its argument
alone, with no ambient state read or written. -/
theorem c6_deterministic (a b : CStrM) (p q : OsStrM) (x y : RStr) :
    (a = b → intoString_CString a = intoString_CString b) ∧
    (a = b → intoString_CStrRef1 a = intoString_CStrRef1 b) ∧
    (p = q → intoString_OsString p = intoString_OsString q) ∧
    (p = q → intoString_OsStrRef1 p = intoString_OsStrRef1 q) ∧
    (x = y → intoString_String x = intoString_String y) ∧
    (x = y → intoString_CowStr (CowM.owned x) = intoString_CowStr (CowM.owned y)) :=
  ⟨fun h => by rw [h], fun h => by rw [h], fun h => by rw [h],
   fun h => by rw [h], fun h => by rw [h], fun h => by rw [h]⟩

/-- Witness for C6 at equal concrete inputs. -/
theorem c6_deterministic_witness :
    intoString_CString ⟨[0x41, 0]⟩ = intoString_CString ⟨[0x41, 0]⟩ :=
  (c6_deterministic ⟨[0x41, 0]⟩ ⟨[0x41, 0]⟩ [] [] [] []).1 rfl

/-- C7: for `CStr`, `CString` and `Cow` of `CStr` inputs whose bytes are
not entirely valid UTF-8, the whole content is discarded: the output is
a string made only of U+FFFD, one per input byte, so its character count
equals the input byte count. -/
theorem c7_cstr_invalid_all_fffd (c : CStrM) (h : decodeUtf8 c.to_bytes = none) :
    intoString_CStrRef1 c = List.replicate c.to_bytes.length 0xFFFD ∧
    intoString_CString c = List.replicate c.to_bytes.length 0xFFFD ∧
    intoString_CowCStr (CowM.owned c) = List.replicate c.to_bytes.length 0xFFFD ∧
    intoString_CowCStr (CowM.borrowed c) = List.replicate c.to_bytes.length 0xFFFD ∧
    (intoString_CStrRef1 c).length = c.to_bytes.length ∧
    (∀ x ∈ intoString_CStrRef1 c, x = 0xFFFD) := by
  have hl : local_to_str c.to_bytes = List.replicate c.to_bytes.length 0xFFFD :=
    local_to_str_of_decode_none _ h
  refine ⟨hl, ?_, ?_, hl, ?_, ?_⟩
  · rw [intoString_CString_eq_local]
    exact hl
  · simp only [intoString_CowCStr]
    rw [intoString_CString_eq_local]
    exact hl
  · show (local_to_str c.to_bytes).length = _
    rw [hl, List.length_replicate]
  · intro x hx
    have hx2 : x ∈ local_to_str c.to_bytes := hx
    exact List.eq_of_mem_replicate (hl ▸ hx2)

/-- Witness for C7: a single invalid byte after a valid ASCII byte. -/
theorem c7_cstr_invalid_all_fffd_witness :
    intoString_CStrRef1 ⟨[0x41, 0xFF, 0]⟩ =
      List.replicate (CStrM.mk [0x41, 0xFF, 0]).to_bytes.length 0xFFFD :=
  (c7_cstr_invalid_all_fffd ⟨[0x41, 0xFF, 0]⟩
    (by simp +decide [CStrM.to_bytes, decodeUtf8])).1

/-- C8: the `OsStr` family performs per-sequence lossy replacement:
valid portions around an invalid byte are preserved and the invalid
byte becomes one U+FFFD, while the `CStr` family wipes the whole buffer;
the two families disagree on the same partially-invalid bytes. -/
theorem c8_osstr_lossy_vs_cstr (pre post : RStr)
    (h1 : ∀ c ∈ pre, IsScalar c) (h2 : ∀ c ∈ post, IsScalar c) :
    intoString_OsStrRef1 (utf8Encode pre ++ 0xFF :: utf8Encode post) =
      pre ++ 0xFFFD :: post ∧
    intoString_CStrRef1 ⟨(utf8Encode pre ++ 0xFF :: utf8Encode post) ++ [0]⟩ =
      List.replicate (utf8Encode pre ++ 0xFF :: utf8Encode post).length 0xFFFD ∧
    intoString_OsStrRef1 [0x41, 0xFF, 0x42] ≠ intoString_CStrRef1 ⟨[0x41, 0xFF, 0x42, 0]⟩ := by
  have hdn : decodeUtf8 (utf8Encode pre ++ 0xFF :: utf8Encode post) = none := by
    rw [decode_encode_append pre h1, decode_invalid_leader 0xFF (by omega)]
    rfl
  refine ⟨?_, ?_, ?_⟩
  · show to_string_lossy _ = _
    unfold to_string_lossy
    rw [lossy_encode_append pre h1, lossy_invalid_leader 0xFF (by omega), lossy_encode post h2]
  · show local_to_str (CStrM.mk _).to_bytes = _
    have hb : (CStrM.mk ((utf8Encode pre ++ 0xFF :: utf8Encode post) ++ [0])).to_bytes
        = utf8Encode pre ++ 0xFF :: utf8Encode post := by
      unfold CStrM.to_bytes
      exact dropLast_append_nul _
    rw [hb, local_to_str_of_decode_none _ hdn]
  · intro heq
    have e1 : intoString_OsStrRef1 [0x41, 0xFF, 0x42] = [0x41, 0xFFFD, 0x42] := by
      simp +decide [intoString_OsStrRef1, to_string_lossy, utf8Lossy]
    have e2 : intoString_CStrRef1 ⟨[0x41, 0xFF, 0x42, 0]⟩ = [0xFFFD, 0xFFFD, 0xFFFD] := by
      simp +decide [intoString_CStrRef1, local_to_str, CStrM.to_bytes, decodeUtf8]
    rw [e1, e2] at heq
    simp at heq

/-- Witness for C8 with one valid scalar on each side of the bad byte. -/
theorem c8_osstr_lossy_vs_cstr_witness :
    intoString_OsStrRef1 (utf8Encode [0x41] ++ 0xFF :: utf8Encode [0x42]) =
      [0x41] ++ 0xFFFD :: [0x42] :=
  (c8_osstr_lossy_vs_cstr [0x41] [0x42] (by decide) (by decide)).1

/-- C9: the terminating NUL byte is never part of the output: the `CStr`
family converts only the bytes before the NUL terminator, and for a
well-formed C string no NUL character occurs in the result. -/
theorem c9_nul_excluded (c : CStrM) (h : WfCStr c) :
    intoString_CStrRef1 c = local_to_str c.buf.dropLast ∧
    (∀ cs, decodeUtf8 c.to_bytes = some cs → intoString_CStrRef1 c = cs) ∧
    0 ∉ intoString_CStrRef1 c ∧
    0 ∉ intoString_CString c ∧
    0 ∉ intoString_CowCStr (CowM.borrowed c) := by
  have hz : ∀ b ∈ c.buf.dropLast, b ≠ 0 := h.2
  have hnm : 0 ∉ local_to_str c.to_bytes := zero_not_mem_local_to_str _ hz
  refine ⟨rfl, ?_, hnm, ?_, hnm⟩
  · intro cs hcs
    exact local_to_str_of_decode _ _ hcs
  · rw [intoString_CString_eq_local]
    exact hnm

/-- Witness for C9 at the C string with content "A". -/
theorem c9_nul_excluded_witness : 0 ∉ intoString_CStrRef1 ⟨[0x41, 0]⟩ :=
  (c9_nul_excluded ⟨[0x41, 0]⟩ (by decide)).2.2.1
